import Mathlib

/-!
Shallow embedding of `gg_status.py`, the GoldenGate status orchestrator:
a remote-command dispatcher that builds console (ggsci) command scripts,
ships them to a target host over ssh with privilege escalation, and prints
the raw result.  The pure string-building functions are translated
directly; the one effectful boundary (`subprocess.run` of the ssh line)
is abstracted as an executor function from the full shell line to a
session result, and `main`'s dispatch is modelled as a total function
that also records every remote-session invocation it performs.
-/

namespace GGStatus

/-- The double-quote character. -/
def dqChar : Char := Char.ofNat 34

/-- The single-quote character. -/
def sqChar : Char := Char.ofNat 39

/-- The backslash character. -/
def bsChar : Char := Char.ofNat 92

/-- The newline character. -/
def nlChar : Char := Char.ofNat 10

/-- Outcome of one remote session attempt, as observed by
`subprocess.run(..., check=True)`: either captured stdout of a
zero-exit run, or the captured stderr of a nonzero-exit run
(delivered in Python as `CalledProcessError.stderr`). -/
inductive SessionResult where
  | ok (stdout : String)
  | err (stderr : String)
deriving DecidableEq, Repr

/-- An executor: runs one full local shell line (the ssh invocation) and
reports the session result.  This abstracts `subprocess.run` with
`shell=True`. -/
def Executor : Type := String → SessionResult

/-- The exact local shell line built by `run_ssh_command`:
`ssh -tt pulseuser@{host} 'sudo su - ggudb -c "{command}"'`. -/
def ssh_command_line (host command : String) : String :=
  "ssh -tt pulseuser@" ++ host ++ " 'sudo su - ggudb -c \"" ++ command ++ "\"'"

/-- `run_ssh_command(host, command)`: run the ssh line through the executor;
on success return stdout, on a nonzero exit return the stderr wrapped with
the fixed error prefix (`except subprocess.CalledProcessError as e:
return f"Error executing command: {e.stderr}"`). -/
def run_ssh_command (ex : Executor) (host command : String) : String :=
  match ex (ssh_command_line host command) with
  | .ok stdout => stdout
  | .err stderr => "Error executing command: " ++ stderr

/-- Traced variant of `run_ssh_command`: also records the one
remote-session invocation it performs, as the pair (host, command). -/
def run_ssh_command_t (ex : Executor) (host command : String) :
    String × List (String × String) :=
  (run_ssh_command ex host command, [(host, command)])

/-- Character-level embedding of `command.replace('"', '\\"')`:
each double quote is replaced by backslash-double-quote, all other
characters are kept. -/
def escDq : List Char → List Char
  | [] => []
  | c :: cs => if c = dqChar then bsChar :: dqChar :: escDq cs else c :: escDq cs

/-- String-level `command.replace('"', '\\"')`. -/
def escapeDq (s : String) : String := ⟨escDq s.data⟩

/-- The single-line console invocation built by `run_ggsci_command`:
`echo '{command}' | ggsci`, after double quotes in the command are
backslash-escaped. -/
def gg_script_of (command : String) : String :=
  "echo '" ++ escapeDq command ++ "' | ggsci"

/-- `run_ggsci_command(host, command)` (traced): escape double quotes,
wrap in the echo-pipe line, and run it over ssh. -/
def run_ggsci_command_t (ex : Executor) (host command : String) :
    String × List (String × String) :=
  run_ssh_command_t ex host (gg_script_of command)

/-- `run_ggsci_command(host, command)`: the returned string alone. -/
def run_ggsci_command (ex : Executor) (host command : String) : String :=
  (run_ggsci_command_t ex host command).1

/-- `get_info_all(host)` (traced). -/
def get_info_all_t (ex : Executor) (host : String) :
    String × List (String × String) :=
  run_ggsci_command_t ex host "info all"

/-- `get_info_all(host)`. -/
def get_info_all (ex : Executor) (host : String) : String :=
  (get_info_all_t ex host).1

/-- `get_info_credentialstore(host)` (traced). -/
def get_info_credentialstore_t (ex : Executor) (host : String) :
    String × List (String × String) :=
  run_ggsci_command_t ex host "info credentialstore"

/-- `get_info_credentialstore(host)`. -/
def get_info_credentialstore (ex : Executor) (host : String) : String :=
  (get_info_credentialstore_t ex host).1

/-- The fixed remote path of the temporary ggsci command file. -/
def tmpCommandFile : String := "/tmp/gg_commands.txt"

/-- Text of `temp_script` in `get_lag_info` that precedes the
interpolated credential alias (`"""...useridalias {cred}..."""`,
up to the `{cred}` field). -/
def lagScriptPre : String :=
  "#!/bin/bash\n# Create a temporary file with GGSCI commands\ncat > /tmp/gg_commands.txt << 'EOF'\ndblogin useridalias "

/-- Text of `temp_script` in `get_lag_info` that follows the
interpolated credential alias. -/
def lagScriptPost : String :=
  "\nlag\ninfo all\nexit\nEOF\n\n# Run GGSCI with the commands file\nggsci < /tmp/gg_commands.txt\nrm -f /tmp/gg_commands.txt\n"

/-- The full remote script built by `get_lag_info`: the triple-quoted
`temp_script` template with `.format(cred=credentialstore)` applied,
i.e. the template text with the alias substituted for the single
`{cred}` field. -/
def lag_script (credentialstore : String) : String :=
  lagScriptPre ++ credentialstore ++ lagScriptPost

/-- The content the generated script feeds into the heredoc file
(the lines between `cat > /tmp/gg_commands.txt << 'EOF'` and the
terminator line). -/
def heredoc_content (credentialstore : String) : String :=
  "dblogin useridalias " ++ credentialstore ++ "\nlag\ninfo all\nexit"

/-- `get_lag_info(host, credentialstore)` (traced). -/
def get_lag_info_t (ex : Executor) (host credentialstore : String) :
    String × List (String × String) :=
  run_ssh_command_t ex host (lag_script credentialstore)

/-- `get_lag_info(host, credentialstore)`. -/
def get_lag_info (ex : Executor) (host credentialstore : String) : String :=
  (get_lag_info_t ex host credentialstore).1

/-- The `--host` argument: one of the two fixed choices. -/
inductive HostArg where
  | gg1
  | gg2
deriving DecidableEq, Repr

/-- The `--command` argument: one of the three fixed choices. -/
inductive CmdArg where
  | info
  | credstore
  | lag
deriving DecidableEq, Repr

/-- An environment: maps a variable name to its value, if set.
Abstracts `os.getenv` after `load_dotenv()`. -/
def Env : Type := String → Option String

/-- Host resolution in `main`: `gg1` maps to `os.getenv('GG1_HOST',
'testdb-ho-03.com')`, `gg2` to `os.getenv('GG2_HOST',
'testdb-ho-06.com')`. -/
def resolveHost (env : Env) : HostArg → String
  | .gg1 => (env "GG1_HOST").getD "testdb-ho-03.com"
  | .gg2 => (env "GG2_HOST").getD "testdb-ho-06.com"

/-- Observable outcome of one `main` run: the lines printed to stdout,
the remote-session invocations performed (host, command pairs handed to
`run_ssh_command`), and the process exit status. -/
structure MainOut where
  printed : List String
  sshCalls : List (String × String)
  exitCode : Nat
deriving DecidableEq, Repr

/-- The fixed configuration-error message printed for `--command lag`
without a usable `--credstore`. -/
def credstoreErrorMsg : String := "Error: --credstore is required for lag command"

/-- `main` after successful argument parsing: resolve the host, dispatch
on the command, print the result.  `if not args.credstore` is true both
when the option is absent (`none`) and when it is the empty string.
Every branch returns normally, so the process exit status is 0. -/
def mainRun (ex : Executor) (env : Env) (host : HostArg) (cmd : CmdArg)
    (credstore : Option String) : MainOut :=
  let hostname := resolveHost env host
  match cmd with
  | .info =>
      let r := get_info_all_t ex hostname
      { printed := [r.1], sshCalls := r.2, exitCode := 0 }
  | .credstore =>
      let r := get_info_credentialstore_t ex hostname
      { printed := [r.1], sshCalls := r.2, exitCode := 0 }
  | .lag =>
      match credstore with
      | none => { printed := [credstoreErrorMsg], sshCalls := [], exitCode := 0 }
      | some cred =>
          if cred = "" then
            { printed := [credstoreErrorMsg], sshCalls := [], exitCode := 0 }
          else
            let r := get_lag_info_t ex hostname cred
            { printed := [r.1], sshCalls := r.2, exitCode := 0 }

/-- Splits a character sequence at newline characters into its lines
(the usual line decomposition: `n` newline characters yield `n + 1`
lines, empty lines included). -/
def splitLines : List Char → List (List Char)
  | [] => [[]]
  | c :: cs =>
    if c = nlChar then [] :: splitLines cs
    else
      match splitLines cs with
      | [] => [[c]]
      | l :: ls => (c :: l) :: ls

/-- Checks that every double-quote character in the sequence is
backslash-escaped: each occurrence of the double quote is consumed
together with an immediately preceding backslash. -/
def allDqEscaped : List Char → Bool
  | [] => true
  | c :: cs =>
    if c = dqChar then false
    else if c = bsChar then
      match cs with
      | [] => true
      | c2 :: rest =>
        if c2 = dqChar then allDqEscaped rest else allDqEscaped (c2 :: rest)
    else allDqEscaped cs

/-- The generated shell line carries the console command as a single
outer-quoted argument: it is the echo-pipe line whose single-quoted
argument contains no single-quote character, so the argument neither
ends early nor splits into several words. -/
def isSingleQuotedEchoLine (s : String) : Prop :=
  ∃ e : String, s = "echo '" ++ e ++ "' | ggsci" ∧ sqChar ∉ e.data

/-- Test-double executor: every remote session ends with a nonzero exit
status and captured standard error `auth failed`. -/
def failExec : Executor := fun _ => .err "auth failed"

/-! Reduction lemmas for the character-level definitions. -/

theorem escDq_dq_cons (t : List Char) :
    escDq (dqChar :: t) = bsChar :: dqChar :: escDq t := rfl

theorem escDq_cons_of_ne (c : Char) (t : List Char) (h : c ≠ dqChar) :
    escDq (c :: t) = c :: escDq t := by
  simp only [escDq, if_neg h]

theorem allDqEscaped_bs_dq_cons (t : List Char) :
    allDqEscaped (bsChar :: dqChar :: t) = allDqEscaped t := rfl

theorem allDqEscaped_bs_nil : allDqEscaped [bsChar] = true := rfl

theorem allDqEscaped_bs_cons_of_ne (c2 : Char) (t : List Char) (h : c2 ≠ dqChar) :
    allDqEscaped (bsChar :: c2 :: t) = allDqEscaped (c2 :: t) := by
  show (if bsChar = dqChar then false
    else if bsChar = bsChar then
      if c2 = dqChar then allDqEscaped t else allDqEscaped (c2 :: t)
    else allDqEscaped (c2 :: t)) = allDqEscaped (c2 :: t)
  rw [if_neg (by decide : ¬ bsChar = dqChar), if_pos rfl, if_neg h]

theorem allDqEscaped_cons_of_ne (c : Char) (t : List Char)
    (h1 : c ≠ dqChar) (h2 : c ≠ bsChar) :
    allDqEscaped (c :: t) = allDqEscaped t := by
  cases t with
  | nil =>
    show (if c = dqChar then false else if c = bsChar then true else true) = true
    rw [if_neg h1, if_neg h2]
  | cons c2 rest =>
    show (if c = dqChar then false
      else if c = bsChar then
        if c2 = dqChar then allDqEscaped rest else allDqEscaped (c2 :: rest)
      else allDqEscaped (c2 :: rest)) = allDqEscaped (c2 :: rest)
    rw [if_neg h1, if_neg h2]

/-- The escaped text never begins with a bare double quote: `escDq`
emits a backslash in front of every double quote it keeps. -/
theorem escDq_head_ne_dq (cs : List Char) (t : List Char) :
    escDq cs ≠ dqChar :: t := by
  cases cs with
  | nil => simp [escDq]
  | cons c cs =>
    by_cases hc : c = dqChar
    · subst hc
      rw [escDq_dq_cons]
      intro h
      rw [List.cons.injEq] at h
      exact absurd h.1 (by decide)
    · rw [escDq_cons_of_ne c cs hc]
      intro h
      rw [List.cons.injEq] at h
      exact absurd h.1 hc

/-- Every double quote in the output of `escDq` is backslash-escaped. -/
theorem allDqEscaped_escDq (cs : List Char) : allDqEscaped (escDq cs) = true := by
  induction cs with
  | nil => rfl
  | cons c cs ih =>
    by_cases hc : c = dqChar
    · subst hc
      rw [escDq_dq_cons, allDqEscaped_bs_dq_cons]
      exact ih
    · rw [escDq_cons_of_ne c cs hc]
      by_cases hb : c = bsChar
      · subst hb
        cases he : escDq cs with
        | nil => exact allDqEscaped_bs_nil
        | cons c2 rest =>
          have h2 : c2 ≠ dqChar := by
            intro heq
            exact escDq_head_ne_dq cs rest (heq ▸ he)
          rw [allDqEscaped_bs_cons_of_ne c2 rest h2, ← he]
          exact ih
      · rw [allDqEscaped_cons_of_ne c _ hc hb]
        exact ih

/-- For any character other than the backslash (the only character
`escDq` inserts besides the double quotes it keeps), membership in the
escaped text coincides with membership in the original text. -/
theorem mem_escDq_of_ne_bs (c' : Char) (h : c' ≠ bsChar) (cs : List Char) :
    c' ∈ escDq cs ↔ c' ∈ cs := by
  induction cs with
  | nil => simp [escDq]
  | cons c cs ih =>
    by_cases hc : c = dqChar
    · subst hc
      rw [escDq_dq_cons]
      simp only [List.mem_cons, ih]
      constructor
      · rintro (h1 | h1 | h1)
        · exact absurd h1 h
        · exact Or.inl h1
        · exact Or.inr h1
      · rintro (h1 | h1)
        · exact Or.inr (Or.inl h1)
        · exact Or.inr (Or.inr h1)
    · rw [escDq_cons_of_ne c cs hc]
      simp [List.mem_cons, ih]

/-- `escDq` neither adds nor removes single-quote characters. -/
theorem count_sq_escDq (cs : List Char) :
    (escDq cs).count sqChar = cs.count sqChar := by
  induction cs with
  | nil => rfl
  | cons c cs ih =>
    by_cases hc : c = dqChar
    · subst hc
      rw [escDq_dq_cons]
      simp [List.count_cons, ih, (by decide : ¬ (dqChar = sqChar)),
        (by decide : ¬ (bsChar = sqChar))]
    · rw [escDq_cons_of_ne c cs hc]
      simp [List.count_cons, ih]

/-- The single-quoted argument of the echo-pipe line is determined by
the line itself: the fixed text around it can be cancelled. -/
theorem echo_arg_unique {a b : String}
    (h : "echo '" ++ a ++ "' | ggsci" = "echo '" ++ b ++ "' | ggsci") : a = b := by
  apply String.ext
  have hd := congrArg String.data h
  simp only [String.data_append, List.append_assoc] at hd
  have h1 := List.append_cancel_left hd
  exact List.append_cancel_right h1

theorem splitLines_ne_nil (s : List Char) : splitLines s ≠ [] := by
  cases s with
  | nil => simp [splitLines]
  | cons c cs =>
    simp only [splitLines]
    split
    · simp
    · split <;> simp

/-- Prepending newline-free text extends the first line of the split
and leaves the remaining lines unchanged. -/
theorem splitLines_append_of_no_nl (a b : List Char) (h : nlChar ∉ a) :
    splitLines (a ++ b) = (a ++ (splitLines b).headI) :: (splitLines b).tail := by
  induction a with
  | nil =>
    simp only [List.nil_append]
    have hne := splitLines_ne_nil b
    cases hb : splitLines b with
    | nil => exact absurd hb hne
    | cons l ls => simp
  | cons c a ih =>
    have hc : c ≠ nlChar := by
      intro heq; exact h (heq ▸ List.mem_cons_self c a)
    have ha : nlChar ∉ a := fun hm => h (List.mem_cons_of_mem c hm)
    rw [List.cons_append]
    show splitLines (c :: (a ++ b)) = _
    simp only [splitLines, if_neg hc, ih ha]
    simp

/-! Claim theorems. -/

/-- C1: for every credential alias, the remote script built by
`get_lag_info` contains, in this order: the login line parameterized
with the alias, the lag line, the info-all line, the exit line (these
four newline-separated, exactly as fed into the heredoc), then the
console invocation `ggsci` with the temporary command file redirected
as its input, then the deletion of that same temporary file. -/
theorem c1_lag_script_ordered (cred : String) :
    ∃ p0 p4 : String,
      lag_script cred =
        p0 ++ "dblogin useridalias " ++ cred ++ "\nlag\ninfo all\nexit\n" ++ p4 ++
          ("ggsci < " ++ tmpCommandFile ++ "\n") ++ ("rm -f " ++ tmpCommandFile ++ "\n") := by
  refine
    ⟨"#!/bin/bash\n# Create a temporary file with GGSCI commands\ncat > /tmp/gg_commands.txt << 'EOF'\n",
      "EOF\n\n# Run GGSCI with the commands file\n", ?_⟩
  rw [lag_script]
  have h1 : ("#!/bin/bash\n# Create a temporary file with GGSCI commands\ncat > /tmp/gg_commands.txt << 'EOF'\n"
      ++ "dblogin useridalias " : String) = lagScriptPre := rfl
  have h2 : ("\nlag\ninfo all\nexit\n" ++ "EOF\n\n# Run GGSCI with the commands file\n" ++
      ("ggsci < " ++ tmpCommandFile ++ "\n") ++ ("rm -f " ++ tmpCommandFile ++ "\n") : String)
      = lagScriptPost := rfl
  rw [← h1, ← h2]
  simp [String.append_assoc]

/-- C2: for every executor, environment and host, dispatching the lag
command with no `--credstore` prints exactly the fixed
configuration-error message, performs zero remote-session invocations,
and exits with status 0. -/
theorem c2_lag_without_credstore_no_session (ex : Executor) (env : Env) (host : HostArg) :
    mainRun ex env host .lag none =
      { printed := [credstoreErrorMsg], sshCalls := [], exitCode := 0 } := rfl

/-- C3: for every intent and credstore argument, whenever the dispatch
actually invoked the Remote Session Executor and every session fails
with nonzero exit and stderr `auth failed`, the string printed by the
pipeline is wrapped with the fixed `Error executing command: ` prefix
and contains `auth failed`. -/
theorem c3_failed_session_error_string (env : Env) (host : HostArg) (cmd : CmdArg)
    (credstore : Option String)
    (h : (mainRun failExec env host cmd credstore).sshCalls ≠ []) :
    ∃ s, (mainRun failExec env host cmd credstore).printed = [s]
      ∧ (∃ rest, s = "Error executing command: " ++ rest)
      ∧ ∃ pre post, s = pre ++ "auth failed" ++ post := by
  cases cmd with
  | info =>
    exact ⟨"Error executing command: auth failed", rfl, ⟨"auth failed", by decide⟩,
      "Error executing command: ", "", by decide⟩
  | credstore =>
    exact ⟨"Error executing command: auth failed", rfl, ⟨"auth failed", by decide⟩,
      "Error executing command: ", "", by decide⟩
  | lag =>
    cases credstore with
    | none => exact absurd rfl h
    | some cred =>
      by_cases hc : cred = ""
      · exact absurd (by simp [mainRun, hc]) h
      · refine ⟨"Error executing command: auth failed", ?_, ⟨"auth failed", by decide⟩,
          "Error executing command: ", "", by decide⟩
        simp only [mainRun, if_neg hc]
        rfl

/-- C3 witness: a concrete run (intent info, host gg1, empty
environment) that does invoke the executor and prints the wrapped
error string. -/
theorem c3_failed_session_error_string_witness :
    (mainRun failExec (fun _ => none) .gg1 .info none).sshCalls ≠ [] ∧
      ∃ s, (mainRun failExec (fun _ => none) .gg1 .info none).printed = [s]
        ∧ (∃ rest, s = "Error executing command: " ++ rest)
        ∧ ∃ pre post, s = pre ++ "auth failed" ++ post :=
  ⟨by decide, c3_failed_session_error_string (fun _ => none) .gg1 .info none (by decide)⟩

/-- C4 counterexample: the claim quantifies over every credential
alias, but an alias containing a newline followed by `EOF` makes the
heredoc terminator token appear verbatim as a line inside the embedded
command sequence. -/
theorem c4_counterexample_eof_line_in_heredoc :
    "EOF".data ∈ splitLines (heredoc_content "x\nEOF").data := by decide

/-- C4 amended: for every credential alias without a newline character
(in particular every single-line alias), the heredoc terminator `EOF`
does not appear verbatim as a line inside the embedded command
sequence of the generated script. -/
theorem c4_amended_no_eof_line (cred : String) (h : nlChar ∉ cred.data) :
    "EOF".data ∉ splitLines (heredoc_content cred).data := by
  have hdata : (heredoc_content cred).data
      = ("dblogin useridalias ".data ++ cred.data) ++ ("\nlag\ninfo all\nexit" : String).data := by
    simp [heredoc_content, String.data_append, List.append_assoc]
  have hno : nlChar ∉ "dblogin useridalias ".data ++ cred.data := by
    intro hm
    rcases List.mem_append.1 hm with h1 | h1
    · exact absurd h1 (by decide)
    · exact h h1
  have hsl : splitLines ("\nlag\ninfo all\nexit" : String).data
      = [[], "lag".data, "info all".data, "exit".data] := by decide
  rw [hdata, splitLines_append_of_no_nl _ _ hno, hsl]
  intro hmem
  rcases List.mem_cons.1 hmem with h1 | h1
  · simp only [List.headI, List.append_nil] at h1
    rw [List.cons_append] at h1
    rw [List.cons.injEq] at h1
    exact absurd h1.1 (by decide)
  · exact absurd h1 (by decide)

/-- C4 amended witness: the alias `PROD_CRED` has no newline, and the
terminator does not occur as a line of the generated command
sequence. -/
theorem c4_amended_no_eof_line_witness :
    nlChar ∉ ("PROD_CRED" : String).data ∧
      "EOF".data ∉ splitLines (heredoc_content "PROD_CRED").data :=
  ⟨by decide, c4_amended_no_eof_line "PROD_CRED" (by decide)⟩

/-- C5 counterexample: the claim quantifies over every command text
containing a double quote, but a text that also contains a single
quote (here `a'b"c`) breaks the outer single-quoted argument of the
generated line even though its double quote is escaped. -/
theorem c5_counterexample_single_quote_breaks_arg :
    dqChar ∈ ("a'b\"c" : String).data ∧
      ¬ (allDqEscaped (escapeDq "a'b\"c").data = true
          ∧ isSingleQuotedEchoLine (gg_script_of "a'b\"c")) := by
  refine ⟨by decide, ?_⟩
  rintro ⟨-, e, he, hs⟩
  have he2 : ("echo '" ++ escapeDq "a'b\"c" ++ "' | ggsci" : String)
      = "echo '" ++ e ++ "' | ggsci" := he
  have hEq : escapeDq "a'b\"c" = e := echo_arg_unique he2
  rw [← hEq] at hs
  exact hs (by decide)

/-- C5 amended: for every command text that contains a double quote
and no single quote, the single-line builder escapes each double quote
with a backslash and the command remains a single outer-quoted
argument of the generated shell line. -/
theorem c5_amended_dq_escaped_single_arg (c : String)
    (_h1 : dqChar ∈ c.data) (h2 : sqChar ∉ c.data) :
    allDqEscaped (escapeDq c).data = true ∧ isSingleQuotedEchoLine (gg_script_of c) := by
  constructor
  · show allDqEscaped (escDq c.data) = true
    exact allDqEscaped_escDq c.data
  · refine ⟨escapeDq c, rfl, ?_⟩
    show sqChar ∉ escDq c.data
    rw [mem_escDq_of_ne_bs sqChar (by decide) c.data]
    exact h2

/-- C5 amended witness: the spec's example text, which contains a
double quote and no single quote. -/
theorem c5_amended_dq_escaped_single_arg_witness :
    dqChar ∈ ("info all, report \"detail\"" : String).data ∧
      sqChar ∉ ("info all, report \"detail\"" : String).data ∧
      (allDqEscaped (escapeDq "info all, report \"detail\"").data = true
        ∧ isSingleQuotedEchoLine (gg_script_of "info all, report \"detail\"")) :=
  ⟨by decide, by decide,
    c5_amended_dq_escaped_single_arg "info all, report \"detail\"" (by decide) (by decide)⟩

/-- C6: for the two non-lag intents, the builder output is exactly the
single-line echo-pipe command: it contains no newline and no double
quote at all (hence no unescaped double quote from the literal intent
text). -/
theorem c6_non_lag_single_line_no_dq :
    (gg_script_of "info all" = "echo 'info all' | ggsci"
      ∧ nlChar ∉ (gg_script_of "info all").data
      ∧ dqChar ∉ (gg_script_of "info all").data)
    ∧ (gg_script_of "info credentialstore" = "echo 'info credentialstore' | ggsci"
      ∧ nlChar ∉ (gg_script_of "info credentialstore").data
      ∧ dqChar ∉ (gg_script_of "info credentialstore").data) := by
  decide

/-- C7: for the fixed alias `PROD_CRED`, the exact line
`dblogin useridalias PROD_CRED` occurs both among the lines of the
heredoc content and among the lines of the full generated script: the
alias is embedded unmutated. -/
theorem c7_prod_cred_exact_login_line :
    "dblogin useridalias PROD_CRED".data ∈ splitLines (heredoc_content "PROD_CRED").data
    ∧ "dblogin useridalias PROD_CRED".data ∈ splitLines (lag_script "PROD_CRED").data := by
  decide

/-- C8: host resolution is a function of the identifier and the
environment override: each identifier resolves to the override value
when its variable is set, and to its hardcoded default otherwise. -/
theorem c8_host_resolution (env : Env) :
    (∀ a, env "GG1_HOST" = some a → resolveHost env .gg1 = a)
    ∧ (env "GG1_HOST" = none → resolveHost env .gg1 = "testdb-ho-03.com")
    ∧ (∀ a, env "GG2_HOST" = some a → resolveHost env .gg2 = a)
    ∧ (env "GG2_HOST" = none → resolveHost env .gg2 = "testdb-ho-06.com") := by
  refine ⟨?_, ?_, ?_, ?_⟩
  · intro a ha
    simp [resolveHost, ha]
  · intro ha
    simp [resolveHost, ha]
  · intro a ha
    simp [resolveHost, ha]
  · intro ha
    simp [resolveHost, ha]

/-- C8 witness: an environment that overrides `GG1_HOST` only: gg1
resolves to the override, gg2 falls back to its default. -/
theorem c8_host_resolution_witness :
    resolveHost (fun v => if v = "GG1_HOST" then some "gg1.example.net" else none) .gg1
      = "gg1.example.net"
    ∧ resolveHost (fun v => if v = "GG1_HOST" then some "gg1.example.net" else none) .gg2
      = "testdb-ho-06.com" :=
  ⟨(c8_host_resolution _).1 "gg1.example.net" (by decide),
    (c8_host_resolution _).2.2.2 (by decide)⟩

/-- C9: for every executor, environment and argument combination, the
process exit status is 0, including on the early-return path for a
missing (or empty) `--credstore` with the lag command. -/
theorem c9_exit_status_zero (ex : Executor) (env : Env) (host : HostArg) (cmd : CmdArg)
    (credstore : Option String) :
    (mainRun ex env host cmd credstore).exitCode = 0 := by
  cases cmd <;> rcases credstore with _ | cred <;> simp [mainRun]
  split <;> rfl

/-- C10: for every command text containing a single quote, the
strategy-1 builder embeds that single quote unchanged (it is present
in the escaped text, with its number of occurrences preserved), and
the generated line is no longer a single correctly quoted argument. -/
theorem c10_single_quote_unescaped_breaks_arg (c : String) (h : sqChar ∈ c.data) :
    sqChar ∈ (escapeDq c).data
    ∧ (escapeDq c).data.count sqChar = c.data.count sqChar
    ∧ ¬ isSingleQuotedEchoLine (gg_script_of c) := by
  have hm : sqChar ∈ (escapeDq c).data := by
    show sqChar ∈ escDq c.data
    exact (mem_escDq_of_ne_bs sqChar (by decide) c.data).2 h
  refine ⟨hm, ?_, ?_⟩
  · show (escDq c.data).count sqChar = c.data.count sqChar
    exact count_sq_escDq c.data
  · rintro ⟨e, he, hs⟩
    have he2 : ("echo '" ++ escapeDq c ++ "' | ggsci" : String)
      = "echo '" ++ e ++ "' | ggsci" := he
    have hEq : escapeDq c = e := echo_arg_unique he2
    rw [← hEq] at hs
    exact hs hm

/-- C10 witness: the text `it's` contains a single quote; the builder
keeps it and the generated line is not a single quoted argument. -/
theorem c10_single_quote_unescaped_breaks_arg_witness :
    sqChar ∈ ("it's" : String).data ∧
      (sqChar ∈ (escapeDq "it's").data
        ∧ (escapeDq "it's").data.count sqChar = ("it's" : String).data.count sqChar
        ∧ ¬ isSingleQuotedEchoLine (gg_script_of "it's")) :=
  ⟨by decide, c10_single_quote_unescaped_breaks_arg "it's" (by decide)⟩

end GGStatus
